import Mathlib

/-!
Hyperion stream client: session lifecycle and dispatcher.

A shallow embedding of `hyperion_stream_client.go`.  The client struct becomes a
structure that is passed explicitly; every method returns the client it leaves
behind together with the operations it performed on the outside world (the
websocket transport, the log, the registered handler), in program order.  What
the outside world answers (the result of a dial, of a write, of a read, of
marshalling) is an input of the embedded method.
-/

namespace Hyperion

/-- Identity of a `*websocket.Conn` handle; `Option Conn` is the Go pointer, `none` being nil. -/
abbrev Conn := Nat

/-- Modelled from the spec: the kind tag of an inbound payload; the declaration of
`IncomingData` is not in the source file. -/
inductive Kind where
  | Action
  | Delta
  | LIBUpdate
  | ForkNotice
  | Other
deriving DecidableEq, Repr

/-- Modelled from the spec: the decoded inbound payload (kind tag, block number, payload); the
declaration of `IncomingData` is not in the source file, which only decodes, stores and hands
over values of this type. -/
structure IncomingData where
  kind : Kind
  blockNum : Int
  content : String
deriving DecidableEq, Repr

/-- Modelled from the spec: the subscription request for actions; its declaration is not in the
source file, which only marshals and stores it, so the filter is an uninterpreted payload. -/
structure StreamActionsRequest where
  fields : String
deriving DecidableEq, Repr

/-- Modelled from the spec: the subscription request for deltas; its declaration is not in the
source file, which only marshals and stores it, so the filter is an uninterpreted payload. -/
structure StreamDeltasRequest where
  fields : String
deriving DecidableEq, Repr

/-- Modelled from the spec: the configuration bundle handed to the constructor; its declaration
is not in the source file, which only stores it. -/
structure HyperionClientOptions where
  endpoint : String
deriving DecidableEq, Repr

/-- The dynamic value held by the `Req` field of a `SavedRequest` (a Go `interface{}`): the source
stores either a `StreamActionsRequest` or a `StreamDeltasRequest` there. -/
inductive Request where
  | actions (request : StreamActionsRequest)
  | deltas (request : StreamDeltasRequest)
deriving DecidableEq, Repr

/-- The ledger entry `SavedRequest{Type: ..., Req: ...}` as the source builds it. -/
structure SavedRequest where
  type : String
  req : Request
deriving DecidableEq, Repr

/-- The Go `error` result: `none` is nil, `some msg` an error with that text. -/
abbrev Error := Option String

/-- The type `AsyncHandlerFunction`, called in the source as `handler(incomingData)` with an
`error` result. -/
abbrev AsyncHandlerFunction := IncomingData → Error

/-- Modelled from the spec: a registered event listener; its declaration is not in the source
file and the source never calls one, so a listener is only an identity. -/
abbrev EventListener := Nat

/-- The struct `HyperionStreamClient`, field by field.  Slices are lists (a nil and an empty slice
are both `[]`), the nilable handler is an `Option`, the two maps are association lists. -/
structure HyperionStreamClient where
  socket : Option Conn
  socketURL : String
  lastReceivedBlock : Int
  dataQueue : List IncomingData
  options : HyperionClientOptions
  libDataQueue : List IncomingData
  reversibleBuffer : List IncomingData
  onDataAsync : Option AsyncHandlerFunction
  onLibDataAsync : Option AsyncHandlerFunction
  online : Bool
  savedRequests : List SavedRequest
  eventListeners : List (String × List EventListener)
  tempEventListeners : List (String × List EventListener)

/-- What a method does to the world outside the client struct, one entry per operation. -/
inductive Effect where
  | dial (url : String)
  | close (conn : Conn)
  | write (conn : Conn) (data : String)
  | read (conn : Conn)
  | spawn (routine : String)
  | handler (item : IncomingData)
  | log (msg : String)
  | print (msg : String)
deriving DecidableEq, Repr

/-- The library functions the source calls and whose result depends on the argument only:
`json.Marshal` on either request type and `json.Unmarshal` into an `IncomingData`. -/
structure Env where
  marshalActions : StreamActionsRequest → Except String String
  marshalDeltas : StreamDeltasRequest → Except String String
  unmarshal : String → Except String IncomingData

/-- Result of a method: its `error` return (`none` for nil, and for a method that returns
nothing), the client afterwards, and the effects it performed, in order. -/
structure Outcome where
  err : Error
  client : HyperionStreamClient
  effects : List Effect

/-- The constructor `NewHyperionStreamClient`: the options are stored, the three queues and the
two listener maps are empty, every other field has its zero value. -/
def NewHyperionStreamClient (options : HyperionClientOptions) : HyperionStreamClient :=
  { socket := none
    socketURL := ""
    lastReceivedBlock := 0
    dataQueue := []
    options := options
    libDataQueue := []
    reversibleBuffer := []
    onDataAsync := none
    onLibDataAsync := none
    online := false
    savedRequests := []
    eventListeners := []
    tempEventListeners := [] }

namespace HyperionStreamClient

/-- The method `Disconnect`: with a handle held it zeroes the block cursor, closes the handle
(the result of `Close` is dropped) and empties the ledger; with no handle it prints a notice. -/
def Disconnect (client : HyperionStreamClient) : Outcome :=
  match client.socket with
  | some conn =>
    { err := none
      client := { client with lastReceivedBlock := 0, savedRequests := [] }
      effects := [Effect.close conn] }
  | none =>
    { err := none, client := client, effects := [Effect.print "Nothing to disconnect!"] }

/-- The method `SetEndpoint`. -/
def SetEndpoint (client : HyperionStreamClient) (endpoint : String) : Outcome :=
  { err := none, client := { client with socketURL := endpoint }, effects := [] }

/-- The method `Connect`.  `dial` is what `websocket.DefaultDialer.Dial` answers: a handle, or an
error, in which case the `*Conn` it returns (and the source assigns to `socket` before looking at
the error) is nil.  The two goroutines it starts are recorded as effects; the iterations of the
reader goroutine are the separate steps `listenIteration`. -/
def Connect (client : HyperionStreamClient) (dial : Except String Conn) : Outcome :=
  if client.socketURL = "" then
    { err := some "endpoint was not defined", client := client, effects := [] }
  else
    match dial with
    | Except.error e =>
      { err := some e
        client := { client with socket := none }
        effects := [Effect.dial client.socketURL] }
    | Except.ok conn =>
      { err := none
        client := { client with socket := some conn, online := true }
        effects := [Effect.dial client.socketURL, Effect.spawn "listenToMessages",
          Effect.spawn "listenToEvents"] }

/-- The method `listenToEvents`, an empty body in the source. -/
def listenToEvents (client : HyperionStreamClient) : Outcome :=
  { err := none, client := client, effects := [] }

/-- The method `StreamActions`.  `write` is what `WriteMessage` answers if the method gets as far
as calling it (`none` for a nil error). -/
def StreamActions (env : Env) (client : HyperionStreamClient) (request : StreamActionsRequest)
    (write : Error) : Outcome :=
  match client.socket with
  | some conn =>
    if client.online then
      match env.marshalActions request with
      | Except.error e => { err := some e, client := client, effects := [] }
      | Except.ok data =>
        match write with
        | some e => { err := some e, client := client, effects := [Effect.write conn data] }
        | none =>
          { err := none
            client := { client with
              savedRequests := client.savedRequests ++ [⟨"action", Request.actions request⟩] }
            effects := [Effect.write conn data] }
    else
      { err := some "client is not connected", client := client, effects := [] }
  | none => { err := some "client is not connected", client := client, effects := [] }

/-- The method `StreamDeltas`, the same shape as `StreamActions` with the tag "delta". -/
def StreamDeltas (env : Env) (client : HyperionStreamClient) (request : StreamDeltasRequest)
    (write : Error) : Outcome :=
  match client.socket with
  | some conn =>
    if client.online then
      match env.marshalDeltas request with
      | Except.error e => { err := some e, client := client, effects := [] }
      | Except.ok data =>
        match write with
        | some e => { err := some e, client := client, effects := [Effect.write conn data] }
        | none =>
          { err := none
            client := { client with
              savedRequests := client.savedRequests ++ [⟨"delta", Request.deltas request⟩] }
            effects := [Effect.write conn data] }
    else
      { err := some "client is not connected", client := client, effects := [] }
  | none => { err := some "client is not connected", client := client, effects := [] }

/-- The method `GetDataQueue`. -/
def GetDataQueue (client : HyperionStreamClient) : List IncomingData :=
  client.dataQueue

/-- The method `ClearDataQueue`. -/
def ClearDataQueue (client : HyperionStreamClient) : Outcome :=
  { err := none, client := { client with dataQueue := [] }, effects := [] }

/-- Where the loop of `listenToMessages` stands: `reading` when it is (blocked) in the next
`ReadMessage`, `returned` once a read error has made it return, `crashed` when it called
`ReadMessage` on a nil handle. -/
inductive LoopStatus where
  | reading
  | returned
  | crashed
deriving DecidableEq, Repr

/-- State of the reader goroutine: the client, the effects so far, and the loop status. -/
structure LoopState where
  client : HyperionStreamClient
  effects : List Effect
  status : LoopStatus

/-- One iteration of the `for` loop of `listenToMessages`.  `read` is what `ReadMessage` answers:
an error ends the loop; a frame that does not unmarshal is logged and skipped; a decoded item is
appended to `dataQueue` and handed to `onDataAsync` when one is set, whose error is only logged. -/
def listenIteration (env : Env) (client : HyperionStreamClient) (read : Except String String) :
    LoopState :=
  match client.socket with
  | none => { client := client, effects := [], status := LoopStatus.crashed }
  | some conn =>
    match read with
    | Except.error e =>
      { client := client
        effects := [Effect.read conn, Effect.log ("Error reading message: " ++ e)]
        status := LoopStatus.returned }
    | Except.ok msg =>
      match env.unmarshal msg with
      | Except.error e =>
        { client := client
          effects := [Effect.read conn, Effect.log ("Error unmarshaling message: " ++ e)]
          status := LoopStatus.reading }
      | Except.ok incomingData =>
        let client1 := { client with dataQueue := client.dataQueue ++ [incomingData] }
        match client1.onDataAsync with
        | none =>
          { client := client1, effects := [Effect.read conn], status := LoopStatus.reading }
        | some onData =>
          match onData incomingData with
          | none =>
            { client := client1
              effects := [Effect.read conn, Effect.handler incomingData]
              status := LoopStatus.reading }
          | some e =>
            { client := client1
              effects := [Effect.read conn, Effect.handler incomingData,
                Effect.log ("Error in onDataAsync handler: " ++ e)]
              status := LoopStatus.reading }

/-- The method `listenToMessages` run on the answers `reads` of the successive `ReadMessage`
calls: it iterates until an iteration returns (or crashes).  When the transport has delivered
nothing more the loop is in its next `ReadMessage`: blocked there (`reading`) on a handle,
crashed on a nil handle. -/
def listenToMessages (env : Env) (client : HyperionStreamClient) :
    List (Except String String) → LoopState
  | [] =>
    match client.socket with
    | none => { client := client, effects := [], status := LoopStatus.crashed }
    | some _ => { client := client, effects := [], status := LoopStatus.reading }
  | read :: rest =>
    let s := listenIteration env client read
    match s.status with
    | LoopStatus.reading =>
      let t := listenToMessages env s.client rest
      { client := t.client, effects := s.effects ++ t.effects, status := t.status }
    | _ => s

end HyperionStreamClient

open HyperionStreamClient

/-- A caller-issued subscription call: `StreamActions(request)` or `StreamDeltas(request)`. -/
inductive Call where
  | actions (request : StreamActionsRequest)
  | deltas (request : StreamDeltasRequest)
deriving DecidableEq, Repr

/-- The call carried out on the client, `write` being the answer of the transport write. -/
def Call.stream (env : Env) (client : HyperionStreamClient) (write : Error) : Call → Outcome
  | Call.actions request => client.StreamActions env request write
  | Call.deltas request => client.StreamDeltas env request write

/-- The result of `json.Marshal` on the request of a call. -/
def Call.marshal (env : Env) : Call → Except String String
  | Call.actions request => env.marshalActions request
  | Call.deltas request => env.marshalDeltas request

/-- The ledger entry the source builds for a call: `SavedRequest{Type: "action", Req: request}`
in `StreamActions`, `SavedRequest{Type: "delta", Req: request}` in `StreamDeltas`. -/
def Call.entry : Call → SavedRequest
  | Call.actions request => ⟨"action", Request.actions request⟩
  | Call.deltas request => ⟨"delta", Request.deltas request⟩

/-- One step of a client's life: a call of a public method with the answer of the outside world
it consumes, or one iteration of the reader goroutine. -/
inductive Op where
  | SetEndpoint (endpoint : String)
  | Connect (dial : Except String Conn)
  | Disconnect
  | Stream (call : Call) (write : Error)
  | GetDataQueue
  | ClearDataQueue
  | listenIteration (read : Except String String)

/-- The step carried out on the client.  `GetDataQueue` only reads; an iteration of the reader
that crashes on a nil handle leaves the client as it found it. -/
def Op.apply (env : Env) (client : HyperionStreamClient) : Op → Outcome
  | Op.SetEndpoint endpoint => client.SetEndpoint endpoint
  | Op.Connect dial => client.Connect dial
  | Op.Disconnect => client.Disconnect
  | Op.Stream call write => call.stream env client write
  | Op.GetDataQueue => { err := none, client := client, effects := [] }
  | Op.ClearDataQueue => client.ClearDataQueue
  | Op.listenIteration read =>
    let s := client.listenIteration env read
    { err := none, client := s.client, effects := s.effects }

/-- A client after a sequence of steps, with the error returned by each step and all effects,
both in order. -/
structure Run where
  client : HyperionStreamClient
  errs : List Error
  effects : List Effect

/-- The steps `ops` carried out one after the other, starting from `client`.  Steps are atomic:
the interleaving of the callers and of the reader goroutine is the order of the list.  Every
list is allowed, also one with a reader iteration before any Connect has started a reader, so the
runs cover every state the program can reach. -/
def run (env : Env) (client : HyperionStreamClient) : List Op → Run
  | [] => { client := client, errs := [], effects := [] }
  | op :: ops =>
    let o := op.apply env client
    let r := run env o.client ops
    { client := r.client, errs := o.err :: r.errs, effects := o.effects ++ r.effects }

/-- The payloads written to the handle `conn`, in order. -/
def writesTo (conn : Conn) : List Effect → List String
  | [] => []
  | Effect.write c data :: rest =>
    if c = conn then data :: writesTo conn rest else writesTo conn rest
  | _ :: rest => writesTo conn rest

/-- The items handed to the `onDataAsync` handler, in order. -/
def handled : List Effect → List IncomingData
  | [] => []
  | Effect.handler item :: rest => item :: handled rest
  | _ :: rest => handled rest

/-- The number of `ReadMessage` calls among the effects. -/
def readCount : List Effect → Nat
  | [] => 0
  | Effect.read _ :: rest => readCount rest + 1
  | _ :: rest => readCount rest

/-- The payloads of the calls whose request marshals, in call order. -/
def marshalled (env : Env) : List Call → List String
  | [] => []
  | call :: rest =>
    match call.marshal env with
    | Except.ok data => data :: marshalled env rest
    | Except.error _ => marshalled env rest

/-- The decodings of the frames that unmarshal, in arrival order. -/
def decodings (env : Env) : List String → List IncomingData
  | [] => []
  | frame :: rest =>
    match env.unmarshal frame with
    | Except.ok item => item :: decodings env rest
    | Except.error _ => decodings env rest

/-- A sample environment for concrete runs: requests marshal to a tagged text, except a deltas
request with an empty filter; three frames decode, every other frame is malformed. -/
def sampleEnv : Env :=
  { marshalActions := fun request => Except.ok ("action:" ++ request.fields)
    marshalDeltas := fun request =>
      if request.fields = "" then Except.error "unsupported value"
      else Except.ok ("delta:" ++ request.fields)
    unmarshal := fun frame =>
      if frame = "act" then Except.ok ⟨Kind.Action, 5, "transfer"⟩
      else if frame = "lib" then Except.ok ⟨Kind.LIBUpdate, 7, "lib"⟩
      else if frame = "fork" then Except.ok ⟨Kind.ForkNotice, 6, "fork"⟩
      else Except.error "invalid character" }

/-- A sample client: freshly constructed, endpoint set, connected on handle 1. -/
def sampleOnline : HyperionStreamClient :=
  (run sampleEnv (NewHyperionStreamClient ⟨"ws://node"⟩)
    [Op.SetEndpoint "ws://node", Op.Connect (Except.ok 1)]).client

end Hyperion

namespace Hyperion
open HyperionStreamClient

/-! ## Shared lemmas -/

theorem writesTo_append (conn : Conn) (xs ys : List Effect) :
    writesTo conn (xs ++ ys) = writesTo conn xs ++ writesTo conn ys := by
  induction xs with
  | nil => rfl
  | cons x xs ih =>
    cases x <;> simp [writesTo, ih]
    split <;> simp

theorem handled_append (xs ys : List Effect) :
    handled (xs ++ ys) = handled xs ++ handled ys := by
  induction xs with
  | nil => rfl
  | cons x xs ih => cases x <;> simp [handled, ih]

theorem readCount_append (xs ys : List Effect) :
    readCount (xs ++ ys) = readCount xs + readCount ys := by
  induction xs with
  | nil => simp [readCount]
  | cons x xs ih => cases x <;> simp [readCount, ih]; omega

/-- A property of the client kept by every step holds along every run. -/
theorem run_keeps (env : Env) (P : HyperionStreamClient → Prop)
    (hstep : ∀ client op, P client → P (Op.apply env client op).client) :
    ∀ (ops : List Op) (client : HyperionStreamClient), P client → P (run env client ops).client := by
  intro ops
  induction ops with
  | nil => intro client h; exact h
  | cons op ops ih => intro client h; exact ih _ (hstep client op h)

/-- An accepted call: connected, the request marshals and the write succeeds. -/
theorem stream_accepted (env : Env) (client : HyperionStreamClient) (conn : Conn) (call : Call)
    (data : String) (hsock : client.socket = some conn) (honline : client.online = true)
    (hdata : call.marshal env = Except.ok data) :
    call.stream env client none =
      { err := none
        client := { client with savedRequests := client.savedRequests ++ [call.entry] }
        effects := [Effect.write conn data] } := by
  cases call <;>
    simp_all [Call.stream, Call.marshal, Call.entry, StreamActions, StreamDeltas]

/-- A call never touches the handle nor the online flag. -/
theorem stream_keeps_session (env : Env) (client : HyperionStreamClient) (call : Call)
    (write : Error) :
    (call.stream env client write).client.socket = client.socket ∧
      (call.stream env client write).client.online = client.online := by
  cases call <;> simp only [Call.stream, StreamActions, StreamDeltas] <;>
    (repeat (first | split | simp))

/-- Effects and writes of a run of calls on a connected client, whatever the transport answers:
the handle and the flag stay, and the writes on the handle are the payloads that marshal. -/
theorem stream_run_writes (env : Env) (conn : Conn) :
    ∀ (calls : List (Call × Error)) (client : HyperionStreamClient),
      client.socket = some conn → client.online = true →
      writesTo conn (run env client (calls.map fun c => Op.Stream c.1 c.2)).effects =
        marshalled env (calls.map Prod.fst) := by
  intro calls
  induction calls with
  | nil => intro client _ _; rfl
  | cons c calls ih =>
    intro client hsock honline
    obtain ⟨hs, ho⟩ := stream_keeps_session env client c.1 c.2
    have hrest := ih (c.1.stream env client c.2).client (hs.trans hsock) (ho.trans honline)
    simp only [List.map_cons, run, Op.apply, writesTo_append, marshalled, hrest]
    cases hc : c.1 <;> simp only [hc] at * <;>
      simp only [Call.stream, Call.marshal, StreamActions, StreamDeltas, hsock, honline] <;>
      (repeat (first | split | simp_all [writesTo]))

/-- An iteration of the reader changes no field of the client but `dataQueue`. -/
theorem listenIteration_frame (env : Env) (client : HyperionStreamClient)
    (read : Except String String) :
    (client.listenIteration env read).client =
      { client with dataQueue := (client.listenIteration env read).client.dataQueue } := by
  simp only [listenIteration]
  (repeat (first | split | rfl))

/-- One iteration on a delivered frame, with a handle held: the loop goes on to the next read,
the queue grows by the decoding of the frame if it has one, and the handler, if set, is called on
that decoding. -/
theorem listenIteration_delivered (env : Env) (client : HyperionStreamClient) (conn : Conn)
    (frame : String) (hsock : client.socket = some conn) :
    (client.listenIteration env (Except.ok frame)).status = LoopStatus.reading ∧
      (client.listenIteration env (Except.ok frame)).client =
        { client with dataQueue := client.dataQueue ++ decodings env [frame] } ∧
      handled (client.listenIteration env (Except.ok frame)).effects =
        (if client.onDataAsync.isSome then decodings env [frame] else []) ∧
      readCount (client.listenIteration env (Except.ok frame)).effects = 1 := by
  cases client
  simp only at hsock
  subst hsock
  simp only [listenIteration, decodings]
  cases hd : env.unmarshal frame with
  | error e => simp [handled, readCount]
  | ok item =>
    rename_i onDataAsync _ _ _ _ _
    cases onDataAsync with
    | none => simp [handled, readCount]
    | some onData =>
      cases hr : onData item <;> simp [handled, readCount, hr]

theorem decodings_cons (env : Env) (frame : String) (frames : List String) :
    decodings env (frame :: frames) = decodings env [frame] ++ decodings env frames := by
  simp only [decodings]
  split <;> simp

/-- Disconnect never touches the handle nor the online flag. -/
theorem Disconnect_keeps_session (client : HyperionStreamClient) :
    client.Disconnect.client.socket = client.socket ∧
      client.Disconnect.client.online = client.online := by
  simp only [Disconnect]
  split <;> simp

/-! ## The request ledger -/

/-- C1: on a connected client (handle non-nil, online true), a sequence of StreamActions and
StreamDeltas calls whose requests all marshal and whose writes all succeed leaves the ledger equal
to the ledger before followed by one entry per call, in call order, each with the tag of its
method ("action" or "delta") and the request of the call; every call returns nil. -/
theorem C1_ledger_follows_call_order (env : Env) (conn : Conn) (calls : List Call)
    (client : HyperionStreamClient)
    (hsock : client.socket = some conn) (honline : client.online = true)
    (hmarshal : ∀ call ∈ calls, ∃ data, call.marshal env = Except.ok data) :
    (run env client (calls.map fun call => Op.Stream call none)).client.savedRequests =
        client.savedRequests ++ calls.map Call.entry ∧
      (run env client (calls.map fun call => Op.Stream call none)).errs =
        calls.map fun _ => none := by
  induction calls generalizing client with
  | nil => simp [run]
  | cons call calls ih =>
    obtain ⟨data, hdata⟩ := hmarshal call (List.mem_cons_self _ _)
    have hacc := stream_accepted env client conn call data hsock honline hdata
    have hrest := ih { client with savedRequests := client.savedRequests ++ [call.entry] }
      hsock honline (fun c hc => hmarshal c (List.mem_cons_of_mem _ hc))
    simp only [List.map_cons, run, Op.apply, hacc]
    refine ⟨?_, ?_⟩
    · rw [hrest.1]; simp
    · rw [hrest.2]

/-- Witness of C1: an actions call then a deltas call on the sample connected client. -/
theorem C1_ledger_follows_call_order_witness :
    (run sampleEnv sampleOnline
        ([Call.actions ⟨"eosio"⟩, Call.deltas ⟨"accounts"⟩].map fun call =>
          Op.Stream call none)).client.savedRequests =
        sampleOnline.savedRequests ++
          [Call.actions ⟨"eosio"⟩, Call.deltas ⟨"accounts"⟩].map Call.entry ∧
      (run sampleEnv sampleOnline
        ([Call.actions ⟨"eosio"⟩, Call.deltas ⟨"accounts"⟩].map fun call =>
          Op.Stream call none)).errs =
        [Call.actions ⟨"eosio"⟩, Call.deltas ⟨"accounts"⟩].map fun _ => none :=
  C1_ledger_follows_call_order sampleEnv 1 [Call.actions ⟨"eosio"⟩, Call.deltas ⟨"accounts"⟩]
    sampleOnline (by decide) (by decide) (by
      intro call hcall
      simp only [List.mem_cons, List.mem_singleton, List.not_mem_nil, or_false] at hcall
      rcases hcall with h | h
      · exact ⟨"action:eosio", by rw [h]; rfl⟩
      · exact ⟨"delta:accounts", by rw [h]; simp [Call.marshal, sampleEnv]⟩)

/-- C2: a StreamActions or StreamDeltas call on a client that is not connected (handle nil or
online false), or whose transport write fails, returns an error and leaves the whole client as it
was; when the client is not connected the error is "client is not connected" and the call
performs no operation on the transport at all. -/
theorem C2_rejected_call_leaves_client (env : Env) (client : HyperionStreamClient) (call : Call)
    (write : Error)
    (h : (client.socket = none ∨ client.online = false) ∨ ∃ e, write = some e) :
    (call.stream env client write).err ≠ none ∧
      (call.stream env client write).client = client ∧
      ((client.socket = none ∨ client.online = false) →
        (call.stream env client write).err = some "client is not connected" ∧
          (call.stream env client write).effects = []) := by
  cases call <;> simp only [Call.stream, StreamActions, StreamDeltas] <;>
    (rcases h with (h | h) | ⟨e, h⟩) <;>
    (repeat (first | split | simp_all))

/-- Witness of C2: a call on a fresh client (never connected), and a call on the sample
connected client whose write fails. -/
theorem C2_rejected_call_leaves_client_witness :
    ((Call.actions ⟨"eosio"⟩).stream sampleEnv (NewHyperionStreamClient ⟨"ws://node"⟩) none).err =
        some "client is not connected" ∧
      ((Call.actions ⟨"eosio"⟩).stream sampleEnv (NewHyperionStreamClient ⟨"ws://node"⟩)
        none).effects = [] ∧
      ((Call.deltas ⟨"accounts"⟩).stream sampleEnv sampleOnline (some "broken pipe")).client =
        sampleOnline :=
  ⟨((C2_rejected_call_leaves_client sampleEnv (NewHyperionStreamClient ⟨"ws://node"⟩)
      (Call.actions ⟨"eosio"⟩) none (Or.inl (Or.inl rfl))).2.2 (Or.inl rfl)).1,
    ((C2_rejected_call_leaves_client sampleEnv (NewHyperionStreamClient ⟨"ws://node"⟩)
      (Call.actions ⟨"eosio"⟩) none (Or.inl (Or.inl rfl))).2.2 (Or.inl rfl)).2,
    (C2_rejected_call_leaves_client sampleEnv sampleOnline (Call.deltas ⟨"accounts"⟩)
      (some "broken pipe") (Or.inr ⟨"broken pipe", rfl⟩)).2.1⟩

/-! ## Reconnecting -/

/-- C3, refuted as stated: a request accepted on handle 1 is in the ledger, yet after Disconnect
and a successful Connect on handle 2 nothing has been written to handle 2 and the ledger is
empty; the first write on handle 2 is the request the caller issues next. -/
theorem C3_replay_counterexample :
    (run sampleEnv sampleOnline
        [Op.Stream (Call.actions ⟨"eosio"⟩) none]).client.savedRequests =
        [⟨"action", Request.actions ⟨"eosio"⟩⟩] ∧
      writesTo 1 (run sampleEnv sampleOnline
        [Op.Stream (Call.actions ⟨"eosio"⟩) none, Op.Disconnect,
          Op.Connect (Except.ok 2)]).effects = ["action:eosio"] ∧
      writesTo 2 (run sampleEnv sampleOnline
        [Op.Stream (Call.actions ⟨"eosio"⟩) none, Op.Disconnect,
          Op.Connect (Except.ok 2)]).effects ≠ ["action:eosio"] ∧
      (run sampleEnv sampleOnline
        [Op.Stream (Call.actions ⟨"eosio"⟩) none, Op.Disconnect,
          Op.Connect (Except.ok 2)]).client.savedRequests = [] ∧
      writesTo 2 (run sampleEnv sampleOnline
        [Op.Stream (Call.actions ⟨"eosio"⟩) none, Op.Disconnect, Op.Connect (Except.ok 2),
          Op.Stream (Call.deltas ⟨"accounts"⟩) none]).effects = ["delta:accounts"] := by
  decide

/-- C3, amended: on a client that holds a handle and has an endpoint, Disconnect followed by a
successful Connect closes the old handle, opens the endpoint and starts the two goroutines, and
nothing else: the ledger is empty afterwards and no request is written.  The writes on the new
handle are then exactly the requests the caller issues from there on (those that marshal), in
call order. -/
theorem C3_reconnect_sends_only_new_requests (env : Env) (client : HyperionStreamClient)
    (old new : Conn) (calls : List (Call × Error))
    (hsock : client.socket = some old) (hurl : client.socketURL ≠ "") :
    (run env client [Op.Disconnect, Op.Connect (Except.ok new)]).client.savedRequests = [] ∧
      (run env client [Op.Disconnect, Op.Connect (Except.ok new)]).effects =
        [Effect.close old, Effect.dial client.socketURL, Effect.spawn "listenToMessages",
          Effect.spawn "listenToEvents"] ∧
      (run env client [Op.Disconnect, Op.Connect (Except.ok new)]).errs = [none, none] ∧
      writesTo new (run env client
        (Op.Disconnect :: Op.Connect (Except.ok new) ::
          calls.map fun c => Op.Stream c.1 c.2)).effects = marshalled env (calls.map Prod.fst) := by
  have hrun := stream_run_writes env new calls
    { client with lastReceivedBlock := 0, savedRequests := [], socket := some new, online := true }
    rfl rfl
  refine ⟨?_, ?_, ?_, ?_⟩
  · simp [run, Op.apply, Disconnect, Connect, hsock, hurl]
  · simp [run, Op.apply, Disconnect, Connect, hsock, hurl]
  · simp [run, Op.apply, Disconnect, Connect, hsock, hurl]
  · simp only [run, Op.apply, Disconnect, Connect, hsock, hurl, if_false, writesTo_append]
    rw [hrun]
    simp [writesTo]

/-- Witness of C3 amended: the sample connected client reconnects on handle 2 and the caller
then issues one deltas request. -/
theorem C3_reconnect_sends_only_new_requests_witness :
    (run sampleEnv sampleOnline [Op.Disconnect, Op.Connect (Except.ok 2)]).client.savedRequests =
        [] ∧
      (run sampleEnv sampleOnline [Op.Disconnect, Op.Connect (Except.ok 2)]).effects =
        [Effect.close 1, Effect.dial sampleOnline.socketURL, Effect.spawn "listenToMessages",
          Effect.spawn "listenToEvents"] ∧
      (run sampleEnv sampleOnline [Op.Disconnect, Op.Connect (Except.ok 2)]).errs =
        [none, none] ∧
      writesTo 2 (run sampleEnv sampleOnline
        (Op.Disconnect :: Op.Connect (Except.ok 2) ::
          [(Call.deltas ⟨"accounts"⟩, (none : Error))].map fun c => Op.Stream c.1 c.2)).effects =
        marshalled sampleEnv ([(Call.deltas ⟨"accounts"⟩, (none : Error))].map Prod.fst) :=
  C3_reconnect_sends_only_new_requests sampleEnv sampleOnline 1 2
    [(Call.deltas ⟨"accounts"⟩, none)] (by decide) (by decide)

/-! ## The dispatcher -/

/-- C4, refuted as stated: a frame that decodes to a LIBUpdate item is appended to dataQueue and
libDataQueue stays empty; a frame that decodes to a ForkNotice item is appended to dataQueue and
reversibleBuffer stays empty. -/
theorem C4_classification_counterexample :
    (sampleEnv.unmarshal "lib" = Except.ok ⟨Kind.LIBUpdate, 7, "lib"⟩ ∧
      (sampleOnline.listenIteration sampleEnv (Except.ok "lib")).client.libDataQueue = [] ∧
      (sampleOnline.listenIteration sampleEnv (Except.ok "lib")).client.dataQueue =
        [⟨Kind.LIBUpdate, 7, "lib"⟩]) ∧
      (sampleEnv.unmarshal "fork" = Except.ok ⟨Kind.ForkNotice, 6, "fork"⟩ ∧
        (sampleOnline.listenIteration sampleEnv (Except.ok "fork")).client.reversibleBuffer = [] ∧
        (sampleOnline.listenIteration sampleEnv (Except.ok "fork")).client.dataQueue =
          [⟨Kind.ForkNotice, 6, "fork"⟩]) := by
  refine ⟨⟨?_, ?_, ?_⟩, ?_, ?_, ?_⟩ <;> rfl

/-- C4, amended: for every successfully decoded inbound frame, whatever the kind tag of the item,
the dispatcher appends the item to dataQueue, and to no other queue: libDataQueue and
reversibleBuffer are what they were. -/
theorem C4_decoded_item_goes_to_dataQueue (env : Env) (client : HyperionStreamClient)
    (conn : Conn) (frame : String) (item : IncomingData)
    (hsock : client.socket = some conn) (hitem : env.unmarshal frame = Except.ok item) :
    (client.listenIteration env (Except.ok frame)).client.dataQueue =
        client.dataQueue ++ [item] ∧
      (client.listenIteration env (Except.ok frame)).client.libDataQueue = client.libDataQueue ∧
      (client.listenIteration env (Except.ok frame)).client.reversibleBuffer =
        client.reversibleBuffer := by
  simp only [listenIteration, hsock, hitem]
  (repeat (first | split | simp_all))

/-- Witness of C4 amended: the LIBUpdate frame of the sample environment on the sample connected
client. -/
theorem C4_decoded_item_goes_to_dataQueue_witness :
    (sampleOnline.listenIteration sampleEnv (Except.ok "lib")).client.dataQueue =
        sampleOnline.dataQueue ++ [⟨Kind.LIBUpdate, 7, "lib"⟩] ∧
      (sampleOnline.listenIteration sampleEnv (Except.ok "lib")).client.libDataQueue =
        sampleOnline.libDataQueue ∧
      (sampleOnline.listenIteration sampleEnv (Except.ok "lib")).client.reversibleBuffer =
        sampleOnline.reversibleBuffer :=
  C4_decoded_item_goes_to_dataQueue sampleEnv sampleOnline 1 "lib" ⟨Kind.LIBUpdate, 7, "lib"⟩
    (by decide) (by rfl)

/-- C8: with a handle held, on every sequence of frames the transport delivers (no read error
yet) the loop of the dispatcher is still reading after the last one and has read every frame; a
frame that does not decode leaves the client (all three queues included) as it was, does not call
the onData handler and does not end the loop; so dataQueue afterwards is dataQueue before followed
by the decodings of exactly the well-formed frames, in arrival order, the other two queues are
untouched, and the handler, when set, was called on exactly those decodings. -/
theorem C8_malformed_frames_are_skipped (env : Env) (conn : Conn) (frames : List String)
    (client : HyperionStreamClient) (hsock : client.socket = some conn) :
    ((client.listenToMessages env (frames.map Except.ok)).status = LoopStatus.reading ∧
      readCount (client.listenToMessages env (frames.map Except.ok)).effects = frames.length ∧
      (client.listenToMessages env (frames.map Except.ok)).client.dataQueue =
        client.dataQueue ++ decodings env frames ∧
      (client.listenToMessages env (frames.map Except.ok)).client.libDataQueue =
        client.libDataQueue ∧
      (client.listenToMessages env (frames.map Except.ok)).client.reversibleBuffer =
        client.reversibleBuffer ∧
      handled (client.listenToMessages env (frames.map Except.ok)).effects =
        (if client.onDataAsync.isSome then decodings env frames else [])) ∧
      ∀ frame e, env.unmarshal frame = Except.error e →
        (client.listenIteration env (Except.ok frame)).status = LoopStatus.reading ∧
          (client.listenIteration env (Except.ok frame)).client = client ∧
          handled (client.listenIteration env (Except.ok frame)).effects = [] := by
  refine ⟨?_, ?_⟩
  · induction frames generalizing client with
    | nil => simp [listenToMessages, hsock, readCount, decodings, handled]
    | cons frame frames ih =>
      obtain ⟨hst, hcl, hh, hr⟩ := listenIteration_delivered env client conn frame hsock
      have hsock1 : (client.listenIteration env (Except.ok frame)).client.socket = some conn := by
        rw [hcl]; exact hsock
      obtain ⟨ist, ird, idq, ilq, irb, ihd⟩ := ih _ hsock1
      simp only [List.map_cons, listenToMessages, hst, readCount_append, handled_append,
        List.length_cons]
      refine ⟨ist, by omega, ?_, ?_, ?_, ?_⟩
      · rw [idq, hcl, decodings_cons env frame frames]; simp
      · rw [ilq, hcl]
      · rw [irb, hcl]
      · rw [ihd, hh, hcl, decodings_cons env frame frames]
        by_cases hset : client.onDataAsync.isSome <;> simp [hset]
  · intro frame e herr
    obtain ⟨hst, hcl, hh, _⟩ := listenIteration_delivered env client conn frame hsock
    refine ⟨hst, ?_, ?_⟩
    · rw [hcl]; simp [decodings, herr]
    · rw [hh]; simp [decodings, herr]

/-- Witness of C8: a malformed frame between two well-formed ones on the sample connected
client. -/
theorem C8_malformed_frames_are_skipped_witness :
    (sampleOnline.listenToMessages sampleEnv
        (["lib", "garbage", "act"].map Except.ok)).client.dataQueue =
      sampleOnline.dataQueue ++ decodings sampleEnv ["lib", "garbage", "act"] :=
  (C8_malformed_frames_are_skipped sampleEnv 1 ["lib", "garbage", "act"] sampleOnline
    (by decide)).1.2.2.1

/-- C9: after ClearDataQueue the data queue is empty (GetDataQueue returns a sequence of length
0) and every other field of the client, the two other queues, the ledger and the status among
them, is what it was; the call touches nothing outside the client. -/
theorem C9_ClearDataQueue_frame (client : HyperionStreamClient) :
    client.ClearDataQueue.client.GetDataQueue = [] ∧
      client.ClearDataQueue.client.GetDataQueue.length = 0 ∧
      client.ClearDataQueue.client = { client with dataQueue := [] } ∧
      client.ClearDataQueue.client.libDataQueue = client.libDataQueue ∧
      client.ClearDataQueue.client.reversibleBuffer = client.reversibleBuffer ∧
      client.ClearDataQueue.client.savedRequests = client.savedRequests ∧
      client.ClearDataQueue.client.online = client.online ∧
      client.ClearDataQueue.client.socket = client.socket ∧
      client.ClearDataQueue.effects = [] := by
  simp [ClearDataQueue, GetDataQueue]

/-! ## The session -/

/-- C5, the code at the failing input: on the sample connected client with one accepted request,
Disconnect zeroes the block cursor, empties the ledger and closes handle 1, but the handle stays
non-nil and online stays true; the StreamDeltas call issued next is not rejected with "client is
not connected": it writes to the closed handle 1 and returns what that write answers. -/
theorem C5_Disconnect_stays_online :
    (run sampleEnv sampleOnline
        [Op.Stream (Call.actions ⟨"eosio"⟩) none]).client.savedRequests ≠ [] ∧
      (run sampleEnv sampleOnline [Op.Stream (Call.actions ⟨"eosio"⟩) none,
        Op.Disconnect]).client.lastReceivedBlock = 0 ∧
      (run sampleEnv sampleOnline [Op.Stream (Call.actions ⟨"eosio"⟩) none,
        Op.Disconnect]).client.savedRequests = [] ∧
      (run sampleEnv sampleOnline [Op.Stream (Call.actions ⟨"eosio"⟩) none,
        Op.Disconnect]).client.socket = some 1 ∧
      (run sampleEnv sampleOnline [Op.Stream (Call.actions ⟨"eosio"⟩) none,
        Op.Disconnect]).client.online = true ∧
      (run sampleEnv sampleOnline [Op.Stream (Call.actions ⟨"eosio"⟩) none, Op.Disconnect,
        Op.Stream (Call.deltas ⟨"accounts"⟩) (some "use of closed network connection")]).errs =
        [none, none, some "use of closed network connection"] ∧
      (run sampleEnv sampleOnline [Op.Stream (Call.actions ⟨"eosio"⟩) none, Op.Disconnect,
        Op.Stream (Call.deltas ⟨"accounts"⟩) (some "use of closed network connection")]).effects =
        [Effect.write 1 "action:eosio", Effect.close 1, Effect.write 1 "delta:accounts"] := by
  decide

/-- Along every run from NewHyperionStreamClient, a non-nil handle implies that online is
true. -/
theorem handle_implies_online (env : Env) (options : HyperionClientOptions) (ops : List Op) :
    (run env (NewHyperionStreamClient options) ops).client.socket ≠ none →
      (run env (NewHyperionStreamClient options) ops).client.online = true := by
  refine run_keeps env (fun c => c.socket ≠ none → c.online = true) ?_ ops _ ?_
  · intro client op h
    cases op with
    | SetEndpoint endpoint => exact h
    | Connect dial =>
      simp only [Op.apply, Connect]
      split
      · exact h
      · cases dial <;> simp
    | Disconnect =>
      obtain ⟨hs, ho⟩ := Disconnect_keeps_session client
      simp only [Op.apply]
      rw [hs, ho]; exact h
    | Stream call write =>
      obtain ⟨hs, ho⟩ := stream_keeps_session env client call write
      simp only [Op.apply]
      rw [hs, ho]; exact h
    | GetDataQueue => exact h
    | ClearDataQueue => exact h
    | listenIteration read =>
      simp only [Op.apply]
      rw [listenIteration_frame env client read]
      exact h
  · intro h
    exact absurd rfl h

/-- Every step keeps "handle non-nil iff online", except a Connect whose dial fails on a client
that has an endpoint and is already online: that is the only path of the source that breaks it. -/
theorem step_keeps_handle_iff_online (env : Env) (client : HyperionStreamClient) (op : Op)
    (hinv : client.socket ≠ none ↔ client.online = true)
    (hop : ∀ e, op = Op.Connect (Except.error e) →
      client.socketURL = "" ∨ client.online = false) :
    (op.apply env client).client.socket ≠ none ↔ (op.apply env client).client.online = true := by
  cases op with
  | SetEndpoint endpoint => exact hinv
  | Connect dial =>
    simp only [Op.apply, Connect]
    split
    · exact hinv
    · rename_i hurl
      cases dial with
      | ok conn => simp
      | error e =>
        rcases hop e rfl with h | h
        · exact absurd h hurl
        · simp [h]
  | Disconnect =>
    obtain ⟨hs, ho⟩ := Disconnect_keeps_session client
    simp only [Op.apply]
    rw [hs, ho]; exact hinv
  | Stream call write =>
    obtain ⟨hs, ho⟩ := stream_keeps_session env client call write
    simp only [Op.apply]
    rw [hs, ho]; exact hinv
  | GetDataQueue => exact hinv
  | ClearDataQueue => exact hinv
  | listenIteration read =>
    simp only [Op.apply]
    rw [listenIteration_frame env client read]
    exact hinv

/-- C6, the code at the failing input: a fresh client, an endpoint set, a successful Connect on
handle 1, then a Connect whose dial fails.  The second Connect returns the dial error, yet it has
overwritten the live handle with nil while online is still true, so "handle non-nil iff online"
is broken.  Handle 1 was never closed, and cannot be any more: Disconnect then closes nothing and
prints "Nothing to disconnect!"; the reader started by the first Connect crashes on the nil handle
at its next iteration; a StreamActions call is rejected although online is true. -/
theorem C6_failed_reconnect_drops_live_handle :
    ((run sampleEnv (NewHyperionStreamClient ⟨"ws://node"⟩)
        [Op.SetEndpoint "ws://node", Op.Connect (Except.ok 1)]).client.socket = some 1 ∧
      (run sampleEnv (NewHyperionStreamClient ⟨"ws://node"⟩)
        [Op.SetEndpoint "ws://node", Op.Connect (Except.ok 1)]).client.online = true) ∧
      (run sampleEnv (NewHyperionStreamClient ⟨"ws://node"⟩)
        [Op.SetEndpoint "ws://node", Op.Connect (Except.ok 1),
          Op.Connect (Except.error "connection refused")]).client.socket = none ∧
      (run sampleEnv (NewHyperionStreamClient ⟨"ws://node"⟩)
        [Op.SetEndpoint "ws://node", Op.Connect (Except.ok 1),
          Op.Connect (Except.error "connection refused")]).client.online = true ∧
      (run sampleEnv (NewHyperionStreamClient ⟨"ws://node"⟩)
        [Op.SetEndpoint "ws://node", Op.Connect (Except.ok 1),
          Op.Connect (Except.error "connection refused"), Op.Disconnect,
          Op.Stream (Call.actions ⟨"eosio"⟩) none]).errs =
        [none, none, some "connection refused", none, some "client is not connected"] ∧
      (run sampleEnv (NewHyperionStreamClient ⟨"ws://node"⟩)
        [Op.SetEndpoint "ws://node", Op.Connect (Except.ok 1),
          Op.Connect (Except.error "connection refused"), Op.Disconnect,
          Op.Stream (Call.actions ⟨"eosio"⟩) none]).effects =
        [Effect.dial "ws://node", Effect.spawn "listenToMessages", Effect.spawn "listenToEvents",
          Effect.dial "ws://node", Effect.print "Nothing to disconnect!"] ∧
      ((run sampleEnv (NewHyperionStreamClient ⟨"ws://node"⟩)
        [Op.SetEndpoint "ws://node", Op.Connect (Except.ok 1),
          Op.Connect (Except.error "connection refused")]).client.listenIteration sampleEnv
            (Except.ok "act")).status = LoopStatus.crashed := by
  decide

/-- C7: on a client whose endpoint is the empty string, Connect returns the error "endpoint was
not defined", performs no operation on the transport (no dial), and leaves the whole client, the
handle and the online flag included, as it was, whatever a dial would have answered. -/
theorem C7_Connect_without_endpoint (client : HyperionStreamClient) (dial : Except String Conn)
    (hurl : client.socketURL = "") :
    (client.Connect dial).err = some "endpoint was not defined" ∧
      (client.Connect dial).effects = [] ∧
      (client.Connect dial).client = client := by
  simp [Connect, hurl]

/-- Witness of C7: a freshly constructed client, whose endpoint is empty whatever the options. -/
theorem C7_Connect_without_endpoint_witness :
    ((NewHyperionStreamClient ⟨"ws://node"⟩).Connect (Except.ok 1)).err =
        some "endpoint was not defined" ∧
      ((NewHyperionStreamClient ⟨"ws://node"⟩).Connect (Except.ok 1)).effects = [] ∧
      ((NewHyperionStreamClient ⟨"ws://node"⟩).Connect (Except.ok 1)).client =
        NewHyperionStreamClient ⟨"ws://node"⟩ :=
  C7_Connect_without_endpoint (NewHyperionStreamClient ⟨"ws://node"⟩) (Except.ok 1) rfl

/-- C10: in every state reached from NewHyperionStreamClient by any sequence of public
operations and dispatcher iterations, whatever the frames decode to, lastReceivedBlock is 0. -/
theorem C10_block_cursor_never_advances (env : Env) (options : HyperionClientOptions)
    (ops : List Op) :
    (run env (NewHyperionStreamClient options) ops).client.lastReceivedBlock = 0 := by
  refine run_keeps env (fun c => c.lastReceivedBlock = 0) ?_ ops _ rfl
  intro client op h
  cases op with
  | SetEndpoint endpoint => exact h
  | Connect dial =>
    simp only [Op.apply, Connect]
    split
    · exact h
    · cases dial <;> exact h
  | Disconnect =>
    simp only [Op.apply, Disconnect]
    split
    · rfl
    · exact h
  | Stream call write =>
    cases call <;> simp only [Op.apply, Call.stream, StreamActions, StreamDeltas] <;>
      (repeat (first | split | exact h))
  | GetDataQueue => exact h
  | ClearDataQueue => exact h
  | listenIteration read =>
    simp only [Op.apply]
    rw [listenIteration_frame env client read]
    exact h

end Hyperion
